import Mathlib

/-!
Shallow embedding of `src/seneca-web-adapter-connect.js` and proofs about it.

The adapter exports one function `connect (options, context, auth, routes, done)`
that registers each route on a connect-style host server, plus a helper
`composeMiddleware` folding a middleware array into one callable.  Effects on
the host server and on the HTTP response are made explicit: registration is
a list of `context.use` calls, and a request run is a list of `Effect`s.
-/

namespace SenecaWebAdapterConnect

/-- JavaScript values that can occur as a middleware reference or as the result
of looking one up in the named-middleware mapping: a function (identified by a
tag), a string key, `undefined` (a missing mapping entry), or any other value
carrying its template-literal rendering. -/
inductive JsVal where
  | func (tag : Nat)
  | str (s : String)
  | undef
  | other (display : String)
deriving DecidableEq

/-- Template-literal rendering of a JavaScript value, as used by the error
message built at line 23 of the source. -/
def jsToString : JsVal → String
  | .func tag => "function " ++ toString tag
  | .str s => s
  | .undef => "undefined"
  | .other display => display

/-- Embedding of lodash `_.isFunction`. -/
def isFunction : JsVal → Bool
  | .func _ => true
  | _ => false

/-- Route descriptor as consumed by the adapter: path, allowed HTTP methods,
message pattern, optional middleware list and the autoreply flag. -/
structure Route where
  path : String
  methods : List String
  pattern : String
  middleware : Option (List JsVal)
  autoreply : Bool
deriving DecidableEq

/-- Adapter-wide options: the named-middleware mapping (`options.middleware`,
a JS object, so a lookup of an absent key yields `undefined`) and
`options.parseBody`. -/
structure AdapterOptions where
  middleware : String → JsVal
  parseBody : Bool

/-- Resolution of one middleware entry, lines 20-26 of the source: a string is
looked up in the mapping, anything else stands for itself; a non-function
result throws an error naming the original entry. -/
def resolveEntry (middleware : String → JsVal) (m : JsVal) : Except String JsVal :=
  let ret := match m with
    | .str s => middleware s
    | _ => m
  if isFunction ret then Except.ok ret
  else Except.error ("expected valid middleware, got " ++ jsToString m)

/-- Resolution of a route's whole middleware list, `(route.middleware || [])
.map(...)`; the embedded `throw` surfaces as the first `Except.error`. -/
def resolveRouteMw (middleware : String → JsVal) (route : Route) : Except String (List JsVal) :=
  (route.middleware.getD []).mapM (resolveEntry middleware)

/-- Boolean test that a route's middleware list fully resolves to functions. -/
def resolvesOk (middleware : String → JsVal) (route : Route) : Bool :=
  match resolveRouteMw middleware route with
  | .ok _ => true
  | .error _ => false

/-- Resolved middleware of a route, defaulting to `[]` when resolution fails
(only ever used under a `resolvesOk` hypothesis). -/
def routeResolved (middleware : String → JsVal) (route : Route) : List JsVal :=
  match resolveRouteMw middleware route with
  | .ok l => l
  | .error _ => []

/-- How one invocation of `connect` terminates: an exception escaping the
route loop, `done(error)`, or `done(null, \x7broutes\x7d)`. -/
inductive Completion where
  | thrown (message : String)
  | doneErr (message : String)
  | doneOk (routes : List Route)
deriving DecidableEq

/-- Observable outcome of one `connect` invocation: the `context.use`
registrations performed (path paired with the route's resolved middleware,
to which the request bridge is appended and the whole composed) and the
termination. -/
structure ConnectResult where
  registered : List (String × List JsVal)
  result : Completion
deriving DecidableEq

/-- Embedding of the `_.each(routes, ...)` loop, lines 17-61: registrations
accumulate in order; a middleware-resolution failure throws, ending the loop
with the registrations made so far; exhausting the list reaches
`done(null, \x7broutes\x7d)`. -/
def connectGo (middleware : String → JsVal) (routes0 : List Route) :
    List Route → List (String × List JsVal) → ConnectResult
  | [], acc => ⟨acc, Completion.doneOk routes0⟩
  | r :: rest, acc =>
    match resolveRouteMw middleware r with
    | .error msg => ⟨acc, Completion.thrown msg⟩
    | .ok mws => connectGo middleware routes0 rest (acc ++ [(r.path, mws)])

/-- Embedding of the exported `connect` function (the unused `auth` argument
is omitted): a missing context returns `done(new Error('no context
provided'))` before any registration; otherwise the route loop runs. -/
def connect (options : AdapterOptions) (context : Option Unit) (routes : List Route) :
    ConnectResult :=
  match context with
  | none => ⟨[], Completion.doneErr "no context provided"⟩
  | some _ => connectGo options.middleware routes routes []

/-- Request bodies and parsed query strings are flat string mappings. -/
abbrev Body := List (String × String)

/-- Inbound HTTP request as the adapter reads it: the method, the body a
previous middleware may have attached (`request.body`), and `originalUrl`. -/
structure Request where
  method : String
  body : Option Body
  originalUrl : String
deriving DecidableEq

/-- Embedding of `URL.parse(url).query`: the part after the first `?`, or
none when there is no query string. -/
def urlQuery (url : String) : Option String :=
  match url.splitOn "?" with
  | [] => none
  | [_] => none
  | _ :: rest => some (String.intercalate "?" rest)

/-- Embedding of `QueryString.parse` on a raw query string: `&`-separated
`key=value` pairs. -/
def parseQueryString (q : String) : List (String × String) :=
  (q.splitOn "&").filterMap fun pair =>
    if pair = "" then none
    else match pair.splitOn "=" with
      | [] => none
      | [k] => some (k, "")
      | k :: vs => some (k, String.intercalate "=" vs)

/-- Composition `QueryString.parse(URL.parse(url).query)`; parsing `null`
yields the empty mapping. -/
def parseQuery (url : String) : List (String × String) :=
  match urlQuery url with
  | none => []
  | some q => parseQueryString q

/-- Dispatch payload `args` field: body, full route descriptor, parsed query. -/
structure PayloadArgs where
  body : Body
  route : Route
  query : List (String × String)
deriving DecidableEq

/-- Dispatch payload, line 41-49 of the source: the live request handle plus
`args` (the response handle is carried along unchanged and not modelled as
data). -/
structure Payload where
  req : Request
  args : PayloadArgs
deriving DecidableEq

/-- Observable actions of the terminal callable on one request, in order:
a body read, a `seneca.act` dispatch, `reply.writeHead(status, headers)`,
`reply.end(body)`, and `next(err)`. -/
inductive Effect where
  | readBody
  | act (pattern : String) (payload : Payload)
  | writeHead (status : Nat) (contentType : String)
  | endRes (body : String)
  | nextErr (e : String)
deriving DecidableEq

/-- Modelled from the spec: the body-reading collaborator `./read-body` is
required by the adapter but its file is not under `src/`; per the external
interfaces section it is `(request, callback)` asynchronously yielding
`(error, parsedBody)`.  It is modelled by the outcome it yields, handed to
the continuation. -/
def ReadBody (outcome : Except String Body) (k : Except String Body → List Effect) :
    List Effect :=
  k outcome

/-- Embedding of the inner `finish(err, body)` function, lines 36-59: an error
goes to `next`; otherwise the payload is built and dispatched, a dispatch
error goes to `next`, and on success an autoreply route writes the JSON
response.  `actResult` is the outcome the dispatch collaborator yields and
`stringify` embeds `JSON.stringify`. -/
def finish {ρ : Type} (route : Route) (req : Request) (actResult : Except String ρ)
    (stringify : ρ → String) : Except String Body → List Effect
  | .error e => [Effect.nextErr e]
  | .ok body =>
    Effect.act route.pattern ⟨req, ⟨body, route, parseQuery req.originalUrl⟩⟩ ::
      (match actResult with
        | .error e => [Effect.nextErr e]
        | .ok v =>
          if route.autoreply then
            [Effect.writeHead 200 "application/json", Effect.endRes (stringify v)]
          else [])

/-- Embedding of the terminal callable (the request bridge), lines 28-60:
nothing happens unless the request method is among the route's methods; with
`parseBody` the body collaborator runs and its outcome reaches `finish`,
otherwise `finish` gets `request.body || \x7b\x7d` directly. -/
def bridge {ρ : Type} (options : AdapterOptions) (route : Route) (req : Request)
    (readOutcome : Except String Body) (actResult : Except String ρ)
    (stringify : ρ → String) : List Effect :=
  if route.methods.contains req.method then
    if options.parseBody then
      Effect.readBody :: ReadBody readOutcome (finish route req actResult stringify)
    else
      finish route req actResult stringify (Except.ok (req.body.getD []))
  else []

/-- Effective body outcome reaching `finish`: the collaborator's yield when
`parseBody` is on, else `request.body || \x7b\x7d`. -/
def effBody (options : AdapterOptions) (req : Request) (readOutcome : Except String Body) :
    Except String Body :=
  if options.parseBody then readOutcome else Except.ok (req.body.getD [])

/-- Effects that touch the HTTP response object. -/
def isWriteEffect : Effect → Bool
  | .writeHead _ _ => true
  | .endRes _ => true
  | _ => false

/-- No effect in the trace touches the HTTP response object. -/
def writesNothing (t : List Effect) : Prop :=
  ∀ ef ∈ t, isWriteEffect ef = false

/-- Shape of a connect middleware callable: `(request, response, next)` where
`next` takes an optional error, in continuation-passing style over an answer
type `τ`. -/
def Mw (σ₁ σ₂ ε τ : Type) : Type :=
  σ₁ → σ₂ → (Option ε → τ) → τ

/-- One step of the `reduce` in `composeMiddleware`, lines 71-78: run
`previous`; an error in its continuation short-circuits to `next`, otherwise
`current` runs with the same `next`. -/
def composeStep {σ₁ σ₂ ε τ : Type} (previous current : Mw σ₁ σ₂ ε τ) : Mw σ₁ σ₂ ε τ :=
  fun req res next =>
    previous req res fun err =>
      match err with
      | some e => next (some e)
      | none => current req res next

/-- Embedding of `composeMiddleware`, lines 70-79: JavaScript `reduce` with no
initial value folds from the first element and throws on an empty array,
hence the `Option`. -/
def composeMiddleware {σ₁ σ₂ ε τ : Type} : List (Mw σ₁ σ₂ ε τ) → Option (Mw σ₁ σ₂ ε τ)
  | [] => none
  | m :: ms => some (ms.foldl composeStep m)

/-- Answer type used to observe a chain run: the events performed, then the
error the outermost continuation received. -/
abbrev MwOut (α ε : Type) := List α × Option ε

/-- Behavioral specification of a middleware callable: it performs its own
events `tr` and then invokes its continuation exactly once with outcome
`out`. -/
def Sem {σ₁ σ₂ ε α : Type} (f : Mw σ₁ σ₂ ε (MwOut α ε)) (tr : List α) (out : Option ε) :
    Prop :=
  ∀ (req : σ₁) (res : σ₂) (next : Option ε → MwOut α ε),
    f req res next = (tr ++ (next out).1, (next out).2)

/-- Events a chain with the given per-middleware specifications performs: each
middleware's events in list order, stopping right after the first middleware
whose continuation receives an error. -/
def chainTrace {α ε : Type} : List (List α × Option ε) → List α
  | [] => []
  | (tr, none) :: rest => tr ++ chainTrace rest
  | (tr, some _) :: _ => tr

/-- Error the composed callable passes to its own continuation: the first
error produced along the chain, if any. -/
def chainOut {α ε : Type} : List (List α × Option ε) → Option ε
  | [] => none
  | (_, none) :: rest => chainOut rest
  | (_, some e) :: _ => some e

/-- Remaining events after an accumulated prefix with outcome `out`: nothing
more once an error occurred, else the rest of the chain. -/
def contTrace {α ε : Type} (out : Option ε) (sp : List (List α × Option ε)) : List α :=
  match out with
  | some _ => []
  | none => chainTrace sp

/-- Outcome after an accumulated prefix with outcome `out`. -/
def contOut {α ε : Type} (out : Option ε) (sp : List (List α × Option ε)) : Option ε :=
  match out with
  | some e => some e
  | none => chainOut sp

/-- Concrete tracing middleware used as witness material: records its index
and hands its designated outcome to its continuation. -/
def traceMw (i : Nat) (out : Option Nat) : Mw Unit Unit Nat (MwOut Nat Nat) :=
  fun _ _ next => (i :: (next out).1, (next out).2)

theorem traceMw_sem (i : Nat) (out : Option Nat) : Sem (traceMw i out) [i] out :=
  fun _ _ _ => rfl

theorem composeStep_sem_err {σ₁ σ₂ ε α : Type} {f : Mw σ₁ σ₂ ε (MwOut α ε)}
    (g : Mw σ₁ σ₂ ε (MwOut α ε)) {tr : List α} {e : ε}
    (hf : Sem f tr (some e)) : Sem (composeStep f g) tr (some e) := by
  intro req res next
  exact hf req res _

theorem composeStep_sem_ok {σ₁ σ₂ ε α : Type} {f g : Mw σ₁ σ₂ ε (MwOut α ε)}
    {tr₁ tr₂ : List α} {out : Option ε}
    (hf : Sem f tr₁ none) (hg : Sem g tr₂ out) :
    Sem (composeStep f g) (tr₁ ++ tr₂) out := by
  intro req res next
  show f req res _ = _
  rw [hf]
  show (tr₁ ++ (g req res next).1, (g req res next).2) = _
  rw [hg]
  simp [List.append_assoc]

theorem foldl_composeStep_sem {σ₁ σ₂ ε α : Type} {ms : List (Mw σ₁ σ₂ ε (MwOut α ε))}
    {sp : List (List α × Option ε)}
    (hfa : List.Forall₂ (fun f p => Sem f p.1 p.2) ms sp) :
    ∀ (acc : Mw σ₁ σ₂ ε (MwOut α ε)) (tr : List α) (out : Option ε), Sem acc tr out →
      Sem (ms.foldl composeStep acc) (tr ++ contTrace out sp) (contOut out sp) := by
  induction hfa with
  | nil =>
    intro acc tr out hacc
    cases out <;> simpa [contTrace, contOut, chainTrace, chainOut] using hacc
  | cons hfp hrest ih =>
    rename_i f p ms2 sp2
    intro acc tr out hacc
    cases out with
    | some e =>
      have hstep := composeStep_sem_err f hacc
      have h := ih (composeStep acc f) tr (some e) hstep
      simpa [contTrace, contOut] using h
    | none =>
      have hstep := composeStep_sem_ok hacc hfp
      have h := ih (composeStep acc f) (tr ++ p.1) p.2 hstep
      obtain ⟨ptr, pout⟩ := p
      cases pout <;>
        simpa [contTrace, contOut, chainTrace, chainOut, List.append_assoc] using h

/-- C1: for every non-empty list of middleware callables (each behaving as a
connect middleware that performs its own events and then invokes its
continuation once with some outcome), `composeMiddleware` yields a callable
that runs the callables strictly in list order, callable i+1 running only
when callable i passed no error to its continuation; the first error passed
to a continuation is propagated to the composed callable's own continuation
and none of the remaining callables run (`chainTrace` stops at the first
error and `chainOut` is that error). -/
theorem composeMiddleware_order_shortcircuit {σ₁ σ₂ ε α : Type}
    {ms : List (Mw σ₁ σ₂ ε (MwOut α ε))} {sp : List (List α × Option ε)}
    (hfa : List.Forall₂ (fun f p => Sem f p.1 p.2) ms sp)
    (hne : ms ≠ []) :
    ∃ g, composeMiddleware ms = some g ∧ Sem g (chainTrace sp) (chainOut sp) := by
  cases hfa with
  | nil => exact absurd rfl hne
  | cons hfp hrest =>
    rename_i f p ms2 sp2
    refine ⟨ms2.foldl composeStep f, rfl, ?_⟩
    have h := foldl_composeStep_sem hrest f p.1 p.2 hfp
    obtain ⟨ptr, pout⟩ := p
    cases pout <;> simpa [contTrace, contOut, chainTrace, chainOut] using h

/-- Witness for C1: a three-element chain whose middle callable errors runs
exactly callables 0 and 1 and delivers that error to the outer
continuation. -/
theorem composeMiddleware_order_shortcircuit_witness :
    ∃ g, composeMiddleware [traceMw 0 none, traceMw 1 (some 7), traceMw 2 none] = some g ∧
      Sem g [0, 1] (some 7) := by
  have hfa : List.Forall₂ (fun f p => Sem f p.1 p.2)
      [traceMw 0 none, traceMw 1 (some 7), traceMw 2 none]
      [([0], none), ([1], some 7), ([2], none)] :=
    List.Forall₂.cons (traceMw_sem 0 none)
      (List.Forall₂.cons (traceMw_sem 1 (some 7))
        (List.Forall₂.cons (traceMw_sem 2 none) List.Forall₂.nil))
  exact composeMiddleware_order_shortcircuit hfa (by simp)

/-- C7: with no host-server context supplied, `connect` invokes `done` with
the configuration error `no context provided` and registers nothing. -/
theorem connect_no_context (options : AdapterOptions) (routes : List Route) :
    connect options none routes = ⟨[], Completion.doneErr "no context provided"⟩ :=
  rfl

theorem connectGo_ok_prefix (middleware : String → JsVal) (routes0 : List Route) :
    ∀ (good rs : List Route) (acc : List (String × List JsVal)),
      (∀ r ∈ good, resolvesOk middleware r = true) →
      connectGo middleware routes0 (good ++ rs) acc
        = connectGo middleware routes0 rs
            (acc ++ good.map fun r => (r.path, routeResolved middleware r)) := by
  intro good
  induction good with
  | nil => intro rs acc _; simp
  | cons r rest ih =>
    intro rs acc hok
    have hr : resolvesOk middleware r = true := hok r (List.mem_cons_self r rest)
    cases hres : resolveRouteMw middleware r with
    | error msg => simp [resolvesOk, hres] at hr
    | ok mws =>
      have hrest : ∀ x ∈ rest, resolvesOk middleware x = true :=
        fun x hx => hok x (List.mem_cons_of_mem r hx)
      calc connectGo middleware routes0 ((r :: rest) ++ rs) acc
          = connectGo middleware routes0 (rest ++ rs) (acc ++ [(r.path, mws)]) := by
            simp [connectGo, hres]
        _ = connectGo middleware routes0 rs
              ((acc ++ [(r.path, mws)]) ++ rest.map fun x => (x.path, routeResolved middleware x)) :=
            ih rs (acc ++ [(r.path, mws)]) hrest
        _ = connectGo middleware routes0 rs
              (acc ++ (r :: rest).map fun x => (x.path, routeResolved middleware x)) := by
            simp [routeResolved, hres]

/-- C9: with a context supplied and every route's middleware resolving to
callables, the routes are registered on the host server in input order, each
under its own path, and `done` is reached exactly once with no error and the
summary holding the original route list. -/
theorem connect_all_valid (options : AdapterOptions) (routes : List Route)
    (h : ∀ r ∈ routes, resolvesOk options.middleware r = true) :
    connect options (some ()) routes
      = ⟨routes.map fun r => (r.path, routeResolved options.middleware r),
         Completion.doneOk routes⟩ := by
  have hpre := connectGo_ok_prefix options.middleware routes routes [] [] h
  simpa [connect, connectGo] using hpre

/-- Example named-middleware mapping with no entries: every lookup yields
`undefined`. -/
def mwMapEmpty : String → JsVal := fun _ => JsVal.undef

/-- Example route whose middleware list resolves (a direct function). -/
def routeGood : Route :=
  ⟨"/a", ["GET"], "role:test,cmd:a", some [JsVal.func 0], true⟩

/-- Example route whose middleware list holds a string key absent from the
mapping, so resolution fails. -/
def routeBad : Route :=
  ⟨"/b", ["GET"], "role:test,cmd:b", some [JsVal.str "nope"], true⟩

/-- Example adapter options with the empty mapping. -/
def optsEmpty : AdapterOptions := ⟨mwMapEmpty, true⟩

/-- Witness for C9: one concrete route with a direct callable registers under
its path and `done` receives the summary. -/
theorem connect_all_valid_witness :
    connect optsEmpty (some ()) [routeGood]
      = ⟨[("/a", [JsVal.func 0])], Completion.doneOk [routeGood]⟩ :=
  connect_all_valid optsEmpty [routeGood] (by decide)

/-- Counterexample for C2: with a valid route followed by a route whose
middleware entry resolves to nothing callable, registration does fail with
an error naming the entry, but the earlier route has already been registered
on the host server, refuting that no route is registered. -/
theorem connect_invalid_mw_counterexample :
    (connect optsEmpty (some ()) [routeGood, routeBad]).result
        = Completion.thrown "expected valid middleware, got nope"
      ∧ (connect optsEmpty (some ()) [routeGood, routeBad]).registered
        = [("/a", [JsVal.func 0])]
      ∧ (connect optsEmpty (some ()) [routeGood, routeBad]).registered ≠ [] := by
  refine ⟨?_, ?_, ?_⟩ <;> decide

/-- C2 (amended): when the routes split as valid ones, then a route holding
an entry that resolves to nothing callable, registration throws the error
naming that entry and neither the failing route nor any later route is
registered; the routes before it, however, have already been registered in
order. -/
theorem connect_invalid_mw_amended (options : AdapterOptions)
    (good : List Route) (bad : Route) (rest : List Route) (m : JsVal)
    (hgood : ∀ r ∈ good, resolvesOk options.middleware r = true)
    (hbad : resolveRouteMw options.middleware bad
        = Except.error ("expected valid middleware, got " ++ jsToString m)) :
    connect options (some ()) (good ++ bad :: rest)
      = ⟨good.map fun r => (r.path, routeResolved options.middleware r),
         Completion.thrown ("expected valid middleware, got " ++ jsToString m)⟩ := by
  have hpre := connectGo_ok_prefix options.middleware (good ++ bad :: rest)
    good (bad :: rest) [] hgood
  simp only [connect]
  rw [hpre]
  simp [connectGo, hbad]

/-- Witness for the amended C2: the concrete two-route list throws the error
naming the string entry and keeps exactly the first route registered. -/
theorem connect_invalid_mw_amended_witness :
    connect optsEmpty (some ()) ([routeGood] ++ routeBad :: [])
      = ⟨[("/a", [JsVal.func 0])],
         Completion.thrown ("expected valid middleware, got " ++ jsToString (JsVal.str "nope"))⟩ :=
  connect_invalid_mw_amended optsEmpty [routeGood] routeBad [] (JsVal.str "nope")
    (by decide) rfl

/-- Example adapter options with body parsing disabled. -/
def optsNoParse : AdapterOptions := ⟨mwMapEmpty, false⟩

/-- Example autoreply route. -/
def pingRoute : Route := ⟨"/ping", ["GET"], "role:test,cmd:ping", none, true⟩

/-- Example route without autoreply. -/
def quietRoute : Route := ⟨"/quiet", ["GET"], "role:test,cmd:quiet", none, false⟩

/-- Example GET request with no attached body. -/
def getReq : Request := ⟨"GET", none, "/ping"⟩

/-- Example POST request with no attached body. -/
def postReq : Request := ⟨"POST", none, "/ping"⟩

/-- Identity serialization used in witnesses (dispatch results already given
as their JSON text). -/
def idStringify : String → String := fun s => s

/-- C3: on a route with autoreply set, when the effective body is available
and the dispatch callback completes without error, the bridge writes status
200 with header `Content-Type: application/json`, a body equal to the JSON
serialization of the dispatch result, and then ends the response. -/
theorem bridge_autoreply_success {ρ : Type} (options : AdapterOptions) (route : Route)
    (req : Request) (readOutcome : Except String Body) (v : ρ) (stringify : ρ → String)
    (b : Body)
    (hm : req.method ∈ route.methods)
    (ha : route.autoreply = true)
    (hb : effBody options req readOutcome = Except.ok b) :
    bridge options route req readOutcome (Except.ok v) stringify
      = (if options.parseBody then [Effect.readBody] else [])
        ++ [Effect.act route.pattern ⟨req, ⟨b, route, parseQuery req.originalUrl⟩⟩,
            Effect.writeHead 200 "application/json",
            Effect.endRes (stringify v)] := by
  cases hp : options.parseBody with
  | true =>
    simp only [effBody, hp, if_true] at hb
    subst hb
    simp [bridge, hm, hp, ReadBody, finish, ha]
  | false =>
    simp only [effBody, hp, Bool.false_eq_true, if_false, Except.ok.injEq] at hb
    simp [bridge, hm, hp, finish, ha, hb]

/-- Witness for C3: a concrete autoreply GET produces exactly the dispatch
followed by the 200 JSON response write. -/
theorem bridge_autoreply_success_witness :
    bridge optsNoParse pingRoute getReq (Except.ok []) (Except.ok "pong") idStringify
      = [Effect.act "role:test,cmd:ping" ⟨getReq, ⟨[], pingRoute, parseQuery "/ping"⟩⟩,
         Effect.writeHead 200 "application/json",
         Effect.endRes "pong"] := by
  have h := bridge_autoreply_success optsNoParse pingRoute getReq (Except.ok [])
    "pong" idStringify [] (by decide) rfl rfl
  simpa [optsNoParse] using h

/-- C8: on a route with autoreply unset, when the dispatch callback completes
without error, the bridge performs only the dispatch and touches the HTTP
response in no way. -/
theorem bridge_no_autoreply_no_write {ρ : Type} (options : AdapterOptions) (route : Route)
    (req : Request) (readOutcome : Except String Body) (v : ρ) (stringify : ρ → String)
    (b : Body)
    (hm : req.method ∈ route.methods)
    (ha : route.autoreply = false)
    (hb : effBody options req readOutcome = Except.ok b) :
    bridge options route req readOutcome (Except.ok v) stringify
        = (if options.parseBody then [Effect.readBody] else [])
          ++ [Effect.act route.pattern ⟨req, ⟨b, route, parseQuery req.originalUrl⟩⟩]
      ∧ writesNothing (bridge options route req readOutcome (Except.ok v) stringify) := by
  cases hp : options.parseBody with
  | true =>
    simp only [effBody, hp, if_true] at hb
    subst hb
    constructor
    · simp [bridge, hm, hp, ReadBody, finish, ha]
    · intro ef hef
      simp [bridge, hm, hp, ReadBody, finish, ha] at hef
      rcases hef with rfl | rfl <;> rfl
  | false =>
    simp only [effBody, hp, Bool.false_eq_true, if_false, Except.ok.injEq] at hb
    constructor
    · simp [bridge, hm, hp, finish, ha, hb]
    · intro ef hef
      simp [bridge, hm, hp, finish, ha] at hef
      subst hef
      rfl

/-- Witness for C8: a concrete non-autoreply GET performs only the dispatch
and no response write. -/
theorem bridge_no_autoreply_no_write_witness :
    bridge optsNoParse quietRoute getReq (Except.ok []) (Except.ok "pong") idStringify
        = [Effect.act "role:test,cmd:quiet" ⟨getReq, ⟨[], quietRoute, parseQuery "/ping"⟩⟩]
      ∧ writesNothing
          (bridge optsNoParse quietRoute getReq (Except.ok []) (Except.ok "pong") idStringify) := by
  have h := bridge_no_autoreply_no_write optsNoParse quietRoute getReq (Except.ok [])
    "pong" idStringify [] (by decide) rfl rfl
  exact ⟨by simpa [optsNoParse] using h.1, h.2⟩

/-- C4: every request-time error reaches the chain's continuation unchanged
and the bridge writes nothing to the HTTP response: a body-read failure goes
straight to `next`, and a dispatch failure goes to `next` after the
dispatch. -/
theorem bridge_error_to_next {ρ : Type} (options : AdapterOptions) (route : Route)
    (req : Request) (readOutcome : Except String Body) (actResult : Except String ρ)
    (stringify : ρ → String) (e : String)
    (hm : req.method ∈ route.methods) :
    (options.parseBody = true → readOutcome = Except.error e →
      bridge options route req readOutcome actResult stringify
          = [Effect.readBody, Effect.nextErr e]
        ∧ writesNothing (bridge options route req readOutcome actResult stringify))
    ∧ ∀ b, effBody options req readOutcome = Except.ok b →
        actResult = Except.error e →
        bridge options route req readOutcome actResult stringify
            = (if options.parseBody then [Effect.readBody] else [])
              ++ [Effect.act route.pattern ⟨req, ⟨b, route, parseQuery req.originalUrl⟩⟩,
                  Effect.nextErr e]
          ∧ writesNothing (bridge options route req readOutcome actResult stringify) := by
  constructor
  · intro hp hr
    subst hr
    constructor
    · simp [bridge, hm, hp, ReadBody, finish]
    · intro ef hef
      simp [bridge, hm, hp, ReadBody, finish] at hef
      rcases hef with rfl | rfl <;> rfl
  · intro b hb hact
    subst hact
    cases hp : options.parseBody with
    | true =>
      simp only [effBody, hp, if_true] at hb
      subst hb
      constructor
      · simp [bridge, hm, hp, ReadBody, finish]
      · intro ef hef
        simp [bridge, hm, hp, ReadBody, finish] at hef
        rcases hef with rfl | rfl | rfl <;> rfl
    | false =>
      simp only [effBody, hp, Bool.false_eq_true, if_false, Except.ok.injEq] at hb
      constructor
      · simp [bridge, hm, hp, finish, hb]
      · intro ef hef
        simp [bridge, hm, hp, finish] at hef
        rcases hef with rfl | rfl <;> rfl

/-- Witness for C4: a concrete dispatch failure yields exactly the dispatch
followed by `next` receiving that error, with no response write. -/
theorem bridge_error_to_next_witness :
    bridge optsNoParse pingRoute getReq (Except.ok [])
        (Except.error "aw snap!") idStringify
      = [Effect.act "role:test,cmd:ping" ⟨getReq, ⟨[], pingRoute, parseQuery "/ping"⟩⟩,
         Effect.nextErr "aw snap!"]
    ∧ writesNothing (bridge optsNoParse pingRoute getReq (Except.ok [])
        (Except.error "aw snap!") idStringify) := by
  have h := (bridge_error_to_next optsNoParse pingRoute getReq (Except.ok [])
    (Except.error "aw snap!") idStringify "aw snap!" (by decide)).2 [] rfl rfl
  exact ⟨by simpa [optsNoParse] using h.1, h.2⟩

/-- C5: a request whose method is not among the route's configured methods
produces no action at all for that route: no body read, no dispatch, no
response write, no continuation call. -/
theorem bridge_method_mismatch {ρ : Type} (options : AdapterOptions) (route : Route)
    (req : Request) (readOutcome : Except String Body) (actResult : Except String ρ)
    (stringify : ρ → String)
    (hm : req.method ∉ route.methods) :
    bridge options route req readOutcome actResult stringify = [] := by
  simp [bridge, hm]

/-- Witness for C5: a POST against a GET-only route leaves an empty trace. -/
theorem bridge_method_mismatch_witness :
    bridge optsNoParse pingRoute postReq (Except.ok []) (Except.ok "pong") idStringify = [] :=
  bridge_method_mismatch optsNoParse pingRoute postReq (Except.ok []) (Except.ok "pong")
    idStringify (by decide)

/-- C6: with `parseBody` disabled and the method matching, the dispatched
payload's `args.body` is `request.body || \x7b\x7d`: the attached body when one
exists, the empty mapping when none does. -/
theorem bridge_parseBody_disabled_body {ρ : Type} (options : AdapterOptions) (route : Route)
    (req : Request) (readOutcome : Except String Body) (actResult : Except String ρ)
    (stringify : ρ → String)
    (hm : req.method ∈ route.methods)
    (hp : options.parseBody = false) :
    ∃ rest,
      bridge options route req readOutcome actResult stringify
          = Effect.act route.pattern
              ⟨req, ⟨req.body.getD [], route, parseQuery req.originalUrl⟩⟩ :: rest
        ∧ (req.body = none → req.body.getD [] = ([] : Body))
        ∧ ∀ b0, req.body = some b0 → req.body.getD [] = b0 := by
  refine ⟨(match actResult with
      | .error e => [Effect.nextErr e]
      | .ok v =>
        if route.autoreply then
          [Effect.writeHead 200 "application/json", Effect.endRes (stringify v)]
        else []), ?_, ?_, ?_⟩
  · simp [bridge, hm, hp, finish]
  · intro h; rw [h]; rfl
  · intro b0 h; rw [h]; rfl

/-- Witness for C6: a concrete request with no attached body dispatches with
the empty mapping as `args.body`. -/
theorem bridge_parseBody_disabled_body_witness :
    ∃ rest,
      bridge optsNoParse pingRoute getReq (Except.error "unused") (Except.ok "pong") idStringify
          = Effect.act "role:test,cmd:ping"
              ⟨getReq, ⟨getReq.body.getD [], pingRoute, parseQuery getReq.originalUrl⟩⟩ :: rest
        ∧ (getReq.body = none → getReq.body.getD [] = ([] : Body))
        ∧ ∀ b0, getReq.body = some b0 → getReq.body.getD [] = b0 :=
  bridge_parseBody_disabled_body optsNoParse pingRoute getReq (Except.error "unused")
    (Except.ok "pong") idStringify (by decide) rfl

/-- C10: the bridge invokes the chain's continuation only when an error
occurs: any `next` call in the trace carries a body-read or dispatch error,
and on a successful dispatch (with or without autoreply) `next` is never
invoked. -/
theorem bridge_next_only_on_error {ρ : Type} (options : AdapterOptions) (route : Route)
    (req : Request) (readOutcome : Except String Body) (actResult : Except String ρ)
    (stringify : ρ → String) :
    (∀ e, Effect.nextErr e ∈ bridge options route req readOutcome actResult stringify →
      effBody options req readOutcome = Except.error e
        ∨ ∃ b, effBody options req readOutcome = Except.ok b ∧ actResult = Except.error e)
    ∧ ∀ (b : Body) (v : ρ), effBody options req readOutcome = Except.ok b →
        actResult = Except.ok v →
        ∀ e, Effect.nextErr e ∉ bridge options route req readOutcome actResult stringify := by
  by_cases hm : req.method ∈ route.methods
  case neg =>
    constructor
    · intro e he; simp [bridge, hm] at he
    · intro b v hb ha e he; simp [bridge, hm] at he
  case pos =>
    cases hp : options.parseBody with
    | true =>
      cases readOutcome with
      | error e2 =>
        constructor
        · intro e he
          simp [bridge, hm, hp, ReadBody, finish] at he
          subst he
          left
          simp [effBody, hp]
        · intro b v hb ha e he
          simp [effBody, hp] at hb
      | ok b2 =>
        cases actResult with
        | error ea =>
          constructor
          · intro e he
            simp [bridge, hm, hp, ReadBody, finish] at he
            subst he
            exact Or.inr ⟨b2, by simp [effBody, hp], rfl⟩
          · intro b v hb ha e he
            exact Except.noConfusion ha
        | ok v2 =>
          cases hauto : route.autoreply with
          | true =>
            constructor
            · intro e he
              simp [bridge, hm, hp, ReadBody, finish, hauto] at he
            · intro b v hb ha e he
              simp [bridge, hm, hp, ReadBody, finish, hauto] at he
          | false =>
            constructor
            · intro e he
              simp [bridge, hm, hp, ReadBody, finish, hauto] at he
            · intro b v hb ha e he
              simp [bridge, hm, hp, ReadBody, finish, hauto] at he
    | false =>
      cases actResult with
      | error ea =>
        constructor
        · intro e he
          simp [bridge, hm, hp, finish] at he
          subst he
          exact Or.inr ⟨req.body.getD [], by simp [effBody, hp], rfl⟩
        · intro b v hb ha e he
          exact Except.noConfusion ha
      | ok v2 =>
        cases hauto : route.autoreply with
        | true =>
          constructor
          · intro e he
            simp [bridge, hm, hp, finish, hauto] at he
          · intro b v hb ha e he
            simp [bridge, hm, hp, finish, hauto] at he
        | false =>
          constructor
          · intro e he
            simp [bridge, hm, hp, finish, hauto] at he
          · intro b v hb ha e he
            simp [bridge, hm, hp, finish, hauto] at he

/-- Witness for C10: on a concrete successful dispatch the continuation is
never invoked. -/
theorem bridge_next_only_on_error_witness :
    Effect.nextErr "boom" ∉
      bridge optsNoParse pingRoute getReq (Except.ok []) (Except.ok "pong") idStringify :=
  (bridge_next_only_on_error optsNoParse pingRoute getReq (Except.ok [])
    (Except.ok "pong") idStringify).2 [] "pong" rfl rfl "boom"

end SenecaWebAdapterConnect
